import Mathlib

/-
Verification of the go-alpha-vantage client library.

The definitions below are a shallow embedding of the repository sources:
ratelimiter.go (the RateLimiter and its Do method), av.go (URL building and
the client operations), connection.go and the functional options file (the
connection built from connOptions).  Go int32 arithmetic is modelled as Int
with explicit two's-complement truncation; fallible Go calls returning
(value, error) pairs are modelled with Except or explicit Option pairs.
-/

namespace AV

/-- Two's-complement truncation of an integer to 32 bits, the meaning of the
Go conversion int32(x). -/
def toInt32 (x : Int) : Int := (x + 2 ^ 31) % 2 ^ 32 - 2 ^ 31

/-- Wrapping 32-bit increment, the meaning of atomic.AddInt32(addr, 1) in Go. -/
def inc32 (x : Int) : Int := toInt32 (x + 1)

/-- Constant DefaultDayLimit of ratelimiter.go: math.MaxInt32. -/
def DefaultDayLimit : Int := 2 ^ 31 - 1

/-- Constant DefaultSecondLimit of ratelimiter.go: math.MaxInt32. -/
def DefaultSecondLimit : Int := 2 ^ 31 - 1

/-- The RateLimiter struct of ratelimiter.go: four int32 fields. -/
structure RateLimiter where
  secLimit : Int
  secCount : Int
  dayLimit : Int
  dayCount : Int
  deriving Repr, DecidableEq

/-- NewRateLimiter of ratelimiter.go, written exactly as the source is: the
zero check on dayLimit assigns DefaultDayLimit to dayLimit, and the zero check
on secLimit ALSO assigns to dayLimit (the source stores DefaultSecondLimit
into the dayLimit variable, never into secLimit). -/
def NewRateLimiter (dayLimit secLimit : Int) : RateLimiter :=
  let d1 : Int := if dayLimit = 0 then DefaultDayLimit else dayLimit
  let d2 : Int := if secLimit = 0 then DefaultSecondLimit else d1
  { secLimit := toInt32 secLimit
    secCount := 0
    dayLimit := toInt32 d2
    dayCount := 0 }

/-- Effect of the per-second ticker of RateLimiter.init: store 0 in secCount. -/
def RateLimiter.resetSec (l : RateLimiter) : RateLimiter :=
  { l with secCount := 0 }

/-- Effect of the per-day ticker of RateLimiter.init: store 0 in dayCount. -/
def RateLimiter.resetDay (l : RateLimiter) : RateLimiter :=
  { l with dayCount := 0 }

/-- One 50ms sleep step of the delay loop in RateLimiter.Do, during which the
background tickers of RateLimiter.init may fire: the first component of the
event says whether the per-second ticker fired during the sleep, the second
whether the per-day ticker fired. -/
def RateLimiter.tick (l : RateLimiter) (e : Bool × Bool) : RateLimiter :=
  let l1 := if e.1 then l.resetSec else l
  if e.2 then l1.resetDay else l1

/-- The delay loop of RateLimiter.Do ("for secCount == secLimit, sleep 50ms")
observed along a finite schedule of ticker events, one event per sleep.  The
Bool is true when the loop has exited within the schedule; the RateLimiter is
the state reached (false means the call is still asleep inside the loop after
consuming every event of the schedule). -/
def secWait (l : RateLimiter) : List (Bool × Bool) → Bool × RateLimiter
  | [] => if l.secCount = l.secLimit then (false, l) else (true, l)
  | e :: es => if l.secCount = l.secLimit then secWait (l.tick e) es else (true, l)

/-- Outcome of one RateLimiter.Do call: the daily-limit rejection path, the
still-blocked-in-the-delay-loop observation, or normal completion carrying
exactly the value the work function returned. -/
inductive DoResult (α : Type) where
  | dailyLimit : DoResult α
  | waiting : DoResult α
  | done : α → DoResult α
  deriving Repr, DecidableEq

/-- RateLimiter.Do of ratelimiter.go.  The work function f is modelled as a
state transformer on the world state σ it touches (for the connection it is
the caller-owned URL object), returning its (result, error) pair as α.  The
returned tuple is (outcome, limiter state, world state, number of times the
work function was executed).  On the rejection path Do returns the
ErrDailyLimitReached sentinel (outcome dailyLimit) with everything untouched;
otherwise the delay loop runs, then the work executes once and secCount and
dayCount are incremented with 32-bit wrap, after execution. -/
def RateLimiter.Do {σ α : Type} (l : RateLimiter) (events : List (Bool × Bool))
    (f : σ → σ × α) (s : σ) : DoResult α × RateLimiter × σ × Nat :=
  if l.dayCount = l.dayLimit then
    (DoResult.dailyLimit, l, s, 0)
  else
    match secWait l events with
    | (false, l1) => (DoResult.waiting, l1, s, 0)
    | (true, l1) =>
        let r := f s
        (DoResult.done r.2,
         { l1 with secCount := inc32 l1.secCount, dayCount := inc32 l1.dayCount },
         r.1, 1)

/-- Sequential calls to RateLimiter.Do with no ticker events in between and a
trivial work function: runN l n performs n calls and returns the final
limiter state together with the total number of work executions. -/
def runN (l : RateLimiter) : Nat → RateLimiter × Nat
  | 0 => (l, 0)
  | n + 1 =>
    let step := l.Do [] (fun u : Unit => (u, ())) ()
    let rest := runN step.2.1 n
    (rest.1, step.2.2.2 + rest.2)

/-! Basic arithmetic facts about the 32-bit model. -/

theorem toInt32_eq_self {x : Int} (h1 : -2 ^ 31 ≤ x) (h2 : x < 2 ^ 31) :
    toInt32 x = x := by
  unfold toInt32
  rw [Int.emod_eq_of_lt (by omega) (by omega)]
  omega

theorem inc32_eq_succ {x : Int} (h1 : -2 ^ 31 ≤ x) (h2 : x < 2 ^ 31 - 1) :
    inc32 x = x + 1 := by
  unfold inc32
  exact toInt32_eq_self (by omega) (by omega)

/-! Facts about the ticker events and the delay loop. -/

theorem tick_secLimit (l : RateLimiter) (e : Bool × Bool) :
    (l.tick e).secLimit = l.secLimit := by
  rcases e with ⟨a, b⟩
  cases a <;> cases b <;>
    simp [RateLimiter.tick, RateLimiter.resetSec, RateLimiter.resetDay]

theorem tick_dayLimit (l : RateLimiter) (e : Bool × Bool) :
    (l.tick e).dayLimit = l.dayLimit := by
  rcases e with ⟨a, b⟩
  cases a <;> cases b <;>
    simp [RateLimiter.tick, RateLimiter.resetSec, RateLimiter.resetDay]

theorem tick_secCount_zero {l : RateLimiter} (e : Bool × Bool)
    (h : l.secCount = 0) : (l.tick e).secCount = 0 := by
  rcases e with ⟨a, b⟩
  cases a <;> cases b <;>
    simp [RateLimiter.tick, RateLimiter.resetSec, RateLimiter.resetDay, h]

theorem secWait_stuck (es : List (Bool × Bool)) (l : RateLimiter)
    (hc : l.secCount = 0) (hl : l.secLimit = 0) : (secWait l es).1 = false := by
  induction es generalizing l with
  | nil => simp [secWait, hc, hl]
  | cons e es ih =>
      have : l.secCount = l.secLimit := by rw [hc, hl]
      simp only [secWait, if_pos this]
      exact ih (l.tick e) (tick_secCount_zero e hc) (by rw [tick_secLimit, hl])

theorem secWait_secLimit (es : List (Bool × Bool)) (l : RateLimiter) :
    (secWait l es).2.secLimit = l.secLimit := by
  induction es generalizing l with
  | nil => by_cases h : l.secCount = l.secLimit <;> simp [secWait, h]
  | cons e es ih =>
      by_cases h : l.secCount = l.secLimit
      · simp only [secWait, if_pos h]
        rw [ih, tick_secLimit]
      · simp [secWait, h]

theorem secWait_dayLimit (es : List (Bool × Bool)) (l : RateLimiter) :
    (secWait l es).2.dayLimit = l.dayLimit := by
  induction es generalizing l with
  | nil => by_cases h : l.secCount = l.secLimit <;> simp [secWait, h]
  | cons e es ih =>
      by_cases h : l.secCount = l.secLimit
      · simp only [secWait, if_pos h]
        rw [ih, tick_dayLimit]
      · simp [secWait, h]

theorem secWait_exit_ne (es : List (Bool × Bool)) (l : RateLimiter)
    (h : (secWait l es).1 = true) :
    (secWait l es).2.secCount ≠ (secWait l es).2.secLimit := by
  induction es generalizing l with
  | nil =>
      by_cases hc : l.secCount = l.secLimit
      · simp [secWait, hc] at h
      · simp [secWait, hc]
  | cons e es ih =>
      by_cases hc : l.secCount = l.secLimit
      · simp only [secWait, if_pos hc] at h ⊢
        exact ih _ h
      · simp [secWait, hc]

/-- Claim C1 (the code diverges here): in NewRateLimiter the zero check on the
second limit stores DefaultSecondLimit into the DAY limit variable and leaves
secLimit at 0, so for the limiter NewRateLimiter 500 0 the requested day limit
of 500 is clobbered by the sentinel and, far from a burst being admitted
without delay, every Do call stays blocked in the per-second delay loop under
every schedule of ticker resets: the work function is never executed. -/
theorem newRateLimiter_zero_secLimit_blocks {σ α : Type}
    (events : List (Bool × Bool)) (f : σ → σ × α) (s : σ) :
    (NewRateLimiter 500 0).secLimit = 0 ∧
    (NewRateLimiter 500 0).dayLimit = DefaultSecondLimit ∧
    (NewRateLimiter 500 0).dayLimit ≠ 500 ∧
    ((NewRateLimiter 500 0).Do events f s).1 = DoResult.waiting ∧
    ((NewRateLimiter 500 0).Do events f s).2.2.2 = 0 := by
  have hL : NewRateLimiter 500 0 =
      RateLimiter.mk 0 0 (2 ^ 31 - 1) 0 := by decide
  have hstuck : (secWait (NewRateLimiter 500 0) events).1 = false := by
    apply secWait_stuck
    · rw [hL]
    · rw [hL]
  have hday : ¬ (NewRateLimiter 500 0).dayCount = (NewRateLimiter 500 0).dayLimit := by
    rw [hL]; decide
  refine ⟨by rw [hL], by rw [hL]; rfl, by rw [hL]; decide, ?_, ?_⟩ <;>
  · unfold RateLimiter.Do
    rw [if_neg hday]
    rcases hsw : secWait (NewRateLimiter 500 0) events with ⟨b, l1⟩
    have hb : b = false := by rw [hsw] at hstuck; exact hstuck
    subst hb
    simp

/-- Helper: NewRateLimiter with a positive in-range day limit and the sentinel
second limit resolves both limits verbatim. -/
theorem newRateLimiter_pos (D : Nat) (hD0 : 0 < D) (hD : (D : Int) < 2 ^ 31) :
    NewRateLimiter D DefaultSecondLimit =
      RateLimiter.mk DefaultSecondLimit 0 D 0 := by
  unfold NewRateLimiter
  have h1 : ¬ ((D : Int) = 0) := by omega
  have h2 : ¬ (DefaultSecondLimit = (0 : Int)) := by decide
  simp only [h1, h2, if_false, if_neg]
  refine congrArg₂ (fun a b => RateLimiter.mk a 0 b 0) ?_ ?_
  · exact toInt32_eq_self (by decide) (by decide)
  · exact toInt32_eq_self (by omega) (by omega)

/-- Helper: one admitted mid-run step of the sequential day-limit experiment. -/
theorem do_step_mid (j D : Nat) (hjD : j < D) (hD : D < 2 ^ 31 - 1) :
    (RateLimiter.mk DefaultSecondLimit j D j).Do [] (fun u : Unit => (u, ())) ()
      = (DoResult.done (),
         RateLimiter.mk DefaultSecondLimit ((j : Int) + 1) D ((j : Int) + 1), (), 1) := by
  have hday : ¬ ((j : Int) = (D : Int)) := by omega
  have hsec : ¬ ((j : Int) = DefaultSecondLimit) := by
    unfold DefaultSecondLimit; omega
  unfold RateLimiter.Do
  rw [if_neg hday]
  simp only [secWait, hsec, if_neg, if_false]
  have hinc : inc32 (j : Int) = (j : Int) + 1 := by
    apply inc32_eq_succ (by omega)
    unfold DefaultSecondLimit at hsec
    omega
  simp [hinc]

/-- Helper: a call made when dayCount has reached dayLimit is rejected with
the state untouched and the work not executed. -/
theorem do_step_full {σ α : Type} (l : RateLimiter) (events : List (Bool × Bool))
    (f : σ → σ × α) (s : σ) (h : l.dayCount = l.dayLimit) :
    l.Do events f s = (DoResult.dailyLimit, l, s, 0) := by
  unfold RateLimiter.Do
  rw [if_pos h]

/-- Helper: runN splits over addition of call counts. -/
theorem runN_add (l : RateLimiter) (a b : Nat) :
    runN l (a + b)
      = ((runN (runN l a).1 b).1, (runN l a).2 + (runN (runN l a).1 b).2) := by
  induction a generalizing l with
  | zero => simp [runN]
  | succ n ih =>
      have hs : n + 1 + b = (n + b) + 1 := by omega
      rw [hs]
      simp only [runN]
      rw [ih]
      simp [Nat.add_assoc]

/-- Helper: from the state with j admitted calls, n more calls all succeed as
long as j + n stays at most the day limit. -/
theorem runN_fill (n : Nat) : ∀ (j D : Nat), j + n ≤ D → D < 2 ^ 31 - 1 →
    runN (RateLimiter.mk DefaultSecondLimit j D j) n
      = (RateLimiter.mk DefaultSecondLimit ((j + n : Nat) : Int) D ((j + n : Nat) : Int), n) := by
  induction n with
  | zero => intro j D h hD; simp [runN]
  | succ n ih =>
      intro j D h hD
      simp only [runN]
      rw [do_step_mid j D (by omega) hD]
      have hcast : ((j : Int) + 1) = ((j + 1 : Nat) : Int) := by push_cast; ring
      rw [hcast, ih (j + 1) D (by omega) hD]
      have : ((j + 1 + n : Nat) : Int) = ((j + (n + 1) : Nat) : Int) := by push_cast; ring
      rw [this]
      simp [Nat.add_comm]

/-- Claim C2: when dayCount equals dayLimit exactly, Do returns the
ErrDailyLimitReached sentinel immediately with the limiter state, the world
state and the execution count untouched; and for a fresh limiter with day
limit D (unlimited second limit), D + 1 sequential calls execute the work
exactly D times, the last call being rejected by the day-limit check. -/
theorem dayLimit_exact_rejection {σ α : Type} (l : RateLimiter)
    (events : List (Bool × Bool)) (f : σ → σ × α) (s : σ) (D : Nat)
    (h : l.dayCount = l.dayLimit) (hD0 : 0 < D) (hD : D < 2 ^ 31 - 1) :
    l.Do events f s = (DoResult.dailyLimit, l, s, 0) ∧
    (runN (NewRateLimiter D DefaultSecondLimit) (D + 1)).2 = D ∧
    ((runN (NewRateLimiter D DefaultSecondLimit) D).1.Do []
        (fun u : Unit => (u, ())) ()).1 = DoResult.dailyLimit := by
  have hNew := newRateLimiter_pos D hD0 (by omega)
  have hfill := runN_fill D 0 D (by omega) hD
  simp only [Nat.zero_add, Nat.cast_zero] at hfill
  have hfull : (RateLimiter.mk DefaultSecondLimit (D : Int) D (D : Int)).Do []
      (fun u : Unit => (u, ())) () = (DoResult.dailyLimit,
        RateLimiter.mk DefaultSecondLimit (D : Int) D (D : Int), (), 0) :=
    do_step_full _ _ _ _ rfl
  refine ⟨do_step_full l events f s h, ?_, ?_⟩
  · rw [hNew, runN_add _ D 1, hfill]
    simp [runN, hfull]
  · rw [hNew, hfill, hfull]

/-- Witness for claim C2 at a concrete limiter and day limit. -/
theorem dayLimit_exact_rejection_witness :
    (RateLimiter.mk 5 0 3 3).Do [] (fun n : Nat => (n + 1, some 7)) 0
      = (DoResult.dailyLimit, RateLimiter.mk 5 0 3 3, 0, 0) ∧
    (runN (NewRateLimiter 2 DefaultSecondLimit) 3).2 = 2 ∧
    ((runN (NewRateLimiter 2 DefaultSecondLimit) 2).1.Do []
        (fun u : Unit => (u, ())) ()).1 = DoResult.dailyLimit :=
  dayLimit_exact_rejection (RateLimiter.mk 5 0 3 3) []
    (fun n : Nat => (n + 1, some 7)) 0 2 rfl (by decide) (by decide)

/-- Claim C3: a call that passes the day-limit check and whose delay loop
exits executes the work function exactly once, lets its side effect on the
world state happen, returns verbatim the (result, error) pair the work
returned, and increments secCount and dayCount each by one 32-bit step from
their values at loop exit, after execution, whatever the work returned; and
in general the outcome of any Do call is the daily-limit sentinel, the
still-waiting observation, or exactly the pair of the work, so the sentinel
is the only error Do introduces on its own. -/
theorem admitted_call_executes_once {σ α : Type} (l : RateLimiter)
    (events : List (Bool × Bool)) (f : σ → σ × α) (s : σ)
    (hday : l.dayCount ≠ l.dayLimit) (hexit : (secWait l events).1 = true) :
    (l.Do events f s).1 = DoResult.done (f s).2 ∧
    (l.Do events f s).2.2.2 = 1 ∧
    (l.Do events f s).2.2.1 = (f s).1 ∧
    (l.Do events f s).2.1.secCount = inc32 (secWait l events).2.secCount ∧
    (l.Do events f s).2.1.dayCount = inc32 (secWait l events).2.dayCount ∧
    (∀ (l2 : RateLimiter) (ev2 : List (Bool × Bool)) (f2 : σ → σ × α) (s2 : σ),
      (l2.Do ev2 f2 s2).1 = DoResult.dailyLimit ∨
      (l2.Do ev2 f2 s2).1 = DoResult.waiting ∨
      (l2.Do ev2 f2 s2).1 = DoResult.done (f2 s2).2) := by
  have htax : ∀ (l2 : RateLimiter) (ev2 : List (Bool × Bool)) (f2 : σ → σ × α) (s2 : σ),
      (l2.Do ev2 f2 s2).1 = DoResult.dailyLimit ∨
      (l2.Do ev2 f2 s2).1 = DoResult.waiting ∨
      (l2.Do ev2 f2 s2).1 = DoResult.done (f2 s2).2 := by
    intro l2 ev2 f2 s2
    unfold RateLimiter.Do
    by_cases h2 : l2.dayCount = l2.dayLimit
    · simp [h2]
    · rcases h3 : secWait l2 ev2 with ⟨b, l3⟩
      cases b <;> simp [h2, h3]
  have hmain : l.Do events f s =
      (DoResult.done (f s).2,
       { (secWait l events).2 with
           secCount := inc32 (secWait l events).2.secCount,
           dayCount := inc32 (secWait l events).2.dayCount },
       (f s).1, 1) := by
    unfold RateLimiter.Do
    rw [if_neg hday]
    rcases hsw : secWait l events with ⟨b, l1⟩
    have hb : b = true := by rw [hsw] at hexit; exact hexit
    subst hb
    simp [hsw]
  rw [hmain]
  exact ⟨rfl, rfl, rfl, rfl, rfl, htax⟩

/-- Witness for claim C3 at a concrete limiter, schedule and work function. -/
theorem admitted_call_executes_once_witness :
    ((RateLimiter.mk 5 0 3 0).Do [] (fun n : Nat => (n + 1, some 7)) 0).1
        = DoResult.done (some 7) ∧
    ((RateLimiter.mk 5 0 3 0).Do [] (fun n : Nat => (n + 1, some 7)) 0).2.2.2 = 1 ∧
    ((RateLimiter.mk 5 0 3 0).Do [] (fun n : Nat => (n + 1, some 7)) 0).2.2.1 = 1 ∧
    ((RateLimiter.mk 5 0 3 0).Do [] (fun n : Nat => (n + 1, some 7)) 0).2.1.secCount
        = inc32 (secWait (RateLimiter.mk 5 0 3 0) []).2.secCount ∧
    ((RateLimiter.mk 5 0 3 0).Do [] (fun n : Nat => (n + 1, some 7)) 0).2.1.dayCount
        = inc32 (secWait (RateLimiter.mk 5 0 3 0) []).2.dayCount ∧
    (∀ (l2 : RateLimiter) (ev2 : List (Bool × Bool))
        (f2 : Nat → Nat × Option Nat) (s2 : Nat),
      (l2.Do ev2 f2 s2).1 = DoResult.dailyLimit ∨
      (l2.Do ev2 f2 s2).1 = DoResult.waiting ∨
      (l2.Do ev2 f2 s2).1 = DoResult.done (f2 s2).2) :=
  admitted_call_executes_once (RateLimiter.mk 5 0 3 0) []
    (fun n : Nat => (n + 1, some 7)) 0 (by decide) (by decide)

/-- The counter invariant of the specification: both counters sit between 0
and their limit. -/
def Inv (l : RateLimiter) : Prop :=
  0 ≤ l.secCount ∧ l.secCount ≤ l.secLimit ∧ 0 ≤ l.dayCount ∧ l.dayCount ≤ l.dayLimit

theorem tick_inv {l : RateLimiter} (e : Bool × Bool) (h : Inv l) :
    Inv (l.tick e) := by
  obtain ⟨a, b, c, d⟩ := h
  rcases e with ⟨u, v⟩
  cases u <;> cases v <;>
      simp [RateLimiter.tick, RateLimiter.resetSec, RateLimiter.resetDay, Inv] <;>
    omega

theorem tick_dayCount_cases (l : RateLimiter) (e : Bool × Bool) :
    (l.tick e).dayCount = l.dayCount ∨ (l.tick e).dayCount = 0 := by
  rcases e with ⟨u, v⟩
  cases u <;> cases v <;>
    simp [RateLimiter.tick, RateLimiter.resetSec, RateLimiter.resetDay]

theorem secWait_inv (es : List (Bool × Bool)) (l : RateLimiter) (h : Inv l) :
    Inv (secWait l es).2 := by
  induction es generalizing l with
  | nil =>
      by_cases hc : l.secCount = l.secLimit <;> simp [secWait, hc] <;> exact h
  | cons e es ih =>
      by_cases hc : l.secCount = l.secLimit
      · simp only [secWait, if_pos hc]
        exact ih _ (tick_inv e h)
      · simp [secWait, hc]
        exact h

theorem secWait_dayCount_cases (es : List (Bool × Bool)) (l : RateLimiter) :
    (secWait l es).2.dayCount = l.dayCount ∨ (secWait l es).2.dayCount = 0 := by
  induction es generalizing l with
  | nil =>
      by_cases hc : l.secCount = l.secLimit <;> simp [secWait, hc]
  | cons e es ih =>
      by_cases hc : l.secCount = l.secLimit
      · simp only [secWait, if_pos hc]
        rcases ih (l.tick e) with h0 | h0
        · rcases tick_dayCount_cases l e with h1 | h1
          · left; rw [h0, h1]
          · right; rw [h0, h1]
        · right; exact h0
      · simp [secWait, hc]

/-- Helper: the three possible limiter states after a Do call, with the facts
available on the admitted path. -/
theorem do_state_cases {σ α : Type} (l : RateLimiter) (events : List (Bool × Bool))
    (f : σ → σ × α) (s : σ) :
    (l.Do events f s).2.1 = l ∨
    (l.Do events f s).2.1 = (secWait l events).2 ∨
    ((l.Do events f s).2.1 =
        { (secWait l events).2 with
            secCount := inc32 (secWait l events).2.secCount,
            dayCount := inc32 (secWait l events).2.dayCount } ∧
      l.dayCount ≠ l.dayLimit ∧ (secWait l events).1 = true) := by
  unfold RateLimiter.Do
  by_cases hday : l.dayCount = l.dayLimit
  · simp [hday]
  · rcases hsw : secWait l events with ⟨b, l1⟩
    cases b <;> simp [hday, hsw]

/-- Claim C4: the counter invariant 0 ≤ secCount ≤ secLimit and
0 ≤ dayCount ≤ dayLimit is preserved by a sequential Do call (under any
schedule of ticker events) and by each of the two periodic resets; the side
conditions say only that the limits fit in an int32, which every Go value of
the struct does. -/
theorem limiter_invariant_preserved {σ α : Type} (l : RateLimiter)
    (events : List (Bool × Bool)) (f : σ → σ × α) (s : σ)
    (hsl : l.secLimit ≤ DefaultSecondLimit) (hdl : l.dayLimit ≤ DefaultDayLimit)
    (h : Inv l) :
    Inv (l.Do events f s).2.1 ∧ Inv l.resetSec ∧ Inv l.resetDay := by
  obtain ⟨a0, b0, c0, d0⟩ := h
  refine ⟨?_, ?_, ?_⟩
  · rcases do_state_cases l events f s with hc | hc | ⟨hc, hday, hexit⟩
    · rw [hc]; exact ⟨a0, b0, c0, d0⟩
    · rw [hc]; exact secWait_inv events l ⟨a0, b0, c0, d0⟩
    · rw [hc]
      have hinv1 := secWait_inv events l ⟨a0, b0, c0, d0⟩
      obtain ⟨a1, b1, c1, d1⟩ := hinv1
      have hsl1 := secWait_secLimit events l
      have hdl1 := secWait_dayLimit events l
      have hne := secWait_exit_ne events l hexit
      have hsmax : (secWait l events).2.secLimit ≤ 2 ^ 31 - 1 := by
        rw [hsl1]; unfold DefaultSecondLimit at hsl; exact hsl
      have hdmax : (secWait l events).2.dayLimit ≤ 2 ^ 31 - 1 := by
        rw [hdl1]; unfold DefaultDayLimit at hdl; exact hdl
      have hdlt : (secWait l events).2.dayCount < (secWait l events).2.dayLimit := by
        rcases secWait_dayCount_cases events l with h0 | h0 <;> rw [h0, hdl1] <;> omega
      have hq : inc32 (secWait l events).2.secCount = (secWait l events).2.secCount + 1 :=
        inc32_eq_succ (by omega) (by omega)
      have hq2 : inc32 (secWait l events).2.dayCount = (secWait l events).2.dayCount + 1 :=
        inc32_eq_succ (by omega) (by omega)
      unfold Inv
      simp only [hq, hq2]
      refine ⟨by omega, by omega, by omega, by omega⟩
  · unfold Inv RateLimiter.resetSec
    simp only []
    refine ⟨by omega, by omega, by omega, by omega⟩
  · unfold Inv RateLimiter.resetDay
    simp only []
    refine ⟨by omega, by omega, by omega, by omega⟩

/-- Witness for claim C4 at a concrete limiter, schedule and work function. -/
theorem limiter_invariant_preserved_witness :
    Inv ((RateLimiter.mk 5 4 3 2).Do [(true, false)]
        (fun n : Nat => (n + 1, some 7)) 0).2.1 ∧
    Inv (RateLimiter.mk 5 4 3 2).resetSec ∧
    Inv (RateLimiter.mk 5 4 3 2).resetDay :=
  limiter_invariant_preserved (RateLimiter.mk 5 4 3 2) [(true, false)]
    (fun n : Nat => (n + 1, some 7)) 0 (by decide) (by decide)
    ⟨by decide, by decide, by decide, by decide⟩

/-! URL building of av.go. -/

/-- Constant HostDefault of av.go. -/
def HostDefault : String := "www.alphavantage.co"

/-- Constant schemeHttps of av.go. -/
def schemeHttps : String := "https"

/-- Query-key constant of av.go. -/
def queryApiKey : String := "apikey"

/-- Query-key constant of av.go. -/
def queryDataType : String := "datatype"

/-- Query-key constant of av.go. -/
def queryOutputSize : String := "outputsize"

/-- Query-key constant of av.go. -/
def querySymbol : String := "symbol"

/-- Query-key constant of av.go. -/
def queryMarket : String := "market"

/-- Query-key constant of av.go (the function parameter). -/
def queryEndpoint : String := "function"

/-- Query-key constant of av.go. -/
def queryInterval : String := "interval"

/-- Query-value constant of av.go. -/
def valueCompact : String := "compact"

/-- Query-value constant valueJson of av.go, whose value is csv. -/
def valueJson : String := "csv"

/-- Query-value constant of av.go. -/
def valueDigitalCurrencyEndpoint : String := "DIGITAL_CURRENCY_INTRADAY"

/-- Constant pathQuery of av.go. -/
def pathQuery : String := "query"

/-- The url.Values collection of query parameters as an association list; the
iteration order of the Go map does not matter because Encode sorts keys. -/
abbrev Values := List (String × String)

/-- Values.Set of net/url: drop every binding of the key, bind the key to the
single given value. -/
def Values.set (q : Values) (k v : String) : Values :=
  q.filter (fun p => p.1 != k) ++ [(k, v)]

/-- First-some choice on options, used to say which binding of a key wins. -/
def orO : Option String → Option String → Option String
  | some v, _ => some v
  | none, o => o

/-- Lookup of the winning (last) binding of a key in a Values list, the value
Values.Get of net/url returns for the maps built here. -/
def Values.get : Values → String → Option String
  | [], _ => none
  | p :: ps, k => orO (Values.get ps k) (if p.1 = k then some p.2 else none)

/-- Upper-case hexadecimal digits, as escaping in net/url uses. -/
def hexUpper : List Char :=
  ['0', '1', '2', '3', '4', '5', '6', '7', '8', '9', 'A', 'B', 'C', 'D', 'E', 'F']

/-- Escape of one ASCII character under QueryEscape of net/url: unreserved
characters stay, a space becomes a plus, anything else a percent escape. -/
def escapeChar (c : Char) : String :=
  if c.isAlphanum || c = '-' || c = '_' || c = '.' || c = '~' then
    String.singleton c
  else if c = ' ' then
    "+"
  else
    String.singleton '%'
      ++ String.singleton (hexUpper.getD (c.toNat / 16 % 16) '0')
      ++ String.singleton (hexUpper.getD (c.toNat % 16) '0')

/-- QueryEscape of net/url, for the ASCII strings this client sends. -/
def queryEscape (s : String) : String :=
  String.join (s.data.map escapeChar)

/-- Lexicographic at-most comparison of character lists by code point, the
byte-wise string comparison of the Go sort package on ASCII strings. -/
def charListLe : List Char → List Char → Bool
  | [], _ => true
  | _ :: _, [] => false
  | c1 :: t1, c2 :: t2 =>
    if c1.toNat = c2.toNat then charListLe t1 t2
    else decide (c1.toNat < c2.toNat)

/-- Lexicographic string comparison used to sort query keys. -/
def strLe (s1 s2 : String) : Bool := charListLe s1.data s2.data

theorem charListLe_total : ∀ (a b : List Char),
    charListLe a b = true ∨ charListLe b a = true := by
  intro a
  induction a with
  | nil => intro b; left; rfl
  | cons x t1 ih =>
      intro b
      cases b with
      | nil => right; rfl
      | cons y t2 =>
          by_cases hxy : x.toNat = y.toNat
          · rcases ih t2 with h | h
            · left; simp [charListLe, hxy, h]
            · right; simp [charListLe, hxy, h]
          · by_cases hlt : x.toNat < y.toNat
            · left; simp [charListLe, hxy, hlt]
            · right
              have h1 : y.toNat ≠ x.toNat := fun h => hxy h.symm
              have h2 : y.toNat < x.toNat := by omega
              simp [charListLe, h1, h2]

theorem charListLe_trans : ∀ (a b c : List Char),
    charListLe a b = true → charListLe b c = true → charListLe a c = true := by
  intro a
  induction a with
  | nil => intro b c _ _; rfl
  | cons x t1 ih =>
      intro b c h1 h2
      cases b with
      | nil => simp [charListLe] at h1
      | cons y t2 =>
          cases c with
          | nil => simp [charListLe] at h2
          | cons z t3 =>
              simp only [charListLe] at h1 h2 ⊢
              by_cases hxy : x.toNat = y.toNat
              · rw [if_pos hxy] at h1
                by_cases hyz : y.toNat = z.toNat
                · rw [if_pos hyz] at h2
                  rw [if_pos (hxy.trans hyz)]
                  exact ih t2 t3 h1 h2
                · rw [if_neg hyz] at h2
                  simp only [decide_eq_true_eq] at h2
                  have hxz : ¬ x.toNat = z.toNat := by omega
                  rw [if_neg hxz]
                  simp only [decide_eq_true_eq]
                  omega
              · rw [if_neg hxy] at h1
                simp only [decide_eq_true_eq] at h1
                by_cases hyz : y.toNat = z.toNat
                · have hxz : ¬ x.toNat = z.toNat := by omega
                  rw [if_neg hxz]
                  simp only [decide_eq_true_eq]
                  omega
                · rw [if_neg hyz] at h2
                  simp only [decide_eq_true_eq] at h2
                  have hxz : ¬ x.toNat = z.toNat := by omega
                  rw [if_neg hxz]
                  simp only [decide_eq_true_eq]
                  omega

/-- Ordering the sort of url.Values.Encode uses: lexicographic on the key. -/
def keyLe (p1 p2 : String × String) : Prop := strLe p1.1 p2.1 = true

instance : DecidableRel keyLe :=
  fun p1 p2 => inferInstanceAs (Decidable (strLe p1.1 p2.1 = true))

instance : IsTotal (String × String) keyLe :=
  ⟨fun a b => charListLe_total a.1.data b.1.data⟩

instance : IsTrans (String × String) keyLe :=
  ⟨fun a b c h1 h2 => charListLe_trans a.1.data b.1.data c.1.data h1 h2⟩

/-- Encode of url.Values: keys sorted lexicographically, escaped key=value
pairs joined with ampersands. -/
def encodeValues (q : Values) : String :=
  String.intercalate "&"
    ((List.insertionSort keyLe q).map
      (fun p => queryEscape p.1 ++ "=" ++ queryEscape p.2))

/-- The url.URL object, restricted to the fields this client touches. -/
structure URL where
  scheme : String := ""
  host : String := ""
  path : String := ""
  rawQuery : String := ""
  deriving Repr, DecidableEq

/-- String of url.URL for the fields modelled here: scheme with a colon when
present, double slash and host when present, then the path, then a question
mark and the raw query when present. -/
def URL.toString (u : URL) : String :=
  (if u.scheme = "" then "" else u.scheme ++ ":")
    ++ (if u.host = "" then "" else "//" ++ u.host)
    ++ u.path
    ++ (if u.rawQuery = "" then "" else "?" ++ u.rawQuery)

/-- Query assembly of Client.buildRequestPath, av.go: Set the three defaults
(apikey, datatype=csv, outputsize=compact), then Set every caller parameter,
later Set calls replacing the binding of the same key. -/
def buildQuery (apiKey : String) (params : Values) : Values :=
  let q1 := Values.set [] queryApiKey apiKey
  let q2 := Values.set q1 queryDataType valueJson
  let q3 := Values.set q2 queryOutputSize valueCompact
  params.foldl (fun q p => Values.set q p.1 p.2) q3

/-- Client.buildRequestPath of av.go: an URL with the query path and the
encoded query. -/
def buildRequestPath (apiKey : String) (params : Values) : URL :=
  { path := pathQuery, rawQuery := encodeValues (buildQuery apiKey params) }

/-- Modelled from the spec: the TimeSeries enumeration and its keyName method
live in a repository file that is not among the sources; the spec fixes the
name of the daily time-series operation as TIME_SERIES_DAILY. -/
def timeSeriesDailyKey : String := "TIME_SERIES_DAILY"

/-- Endpoint built by Client.StockTimeSeries of av.go for a series name and a
symbol. -/
def stockTimeSeriesEndpoint (apiKey seriesKey symbol : String) : URL :=
  buildRequestPath apiKey [(queryEndpoint, seriesKey), (querySymbol, symbol)]

/-- Claim C5: the endpoint the client builds for the daily time-series
operation with API key test and symbol TEST renders to exactly the expected
string, and for every input of the encoder the parameters appear ordered
lexicographically by key. -/
theorem daily_url_deterministic :
    URL.toString (stockTimeSeriesEndpoint "test" timeSeriesDailyKey "TEST") =
      "query?apikey=test&datatype=csv&function=TIME_SERIES_DAILY&outputsize=compact&symbol=TEST" ∧
    ∀ (q : Values), List.Sorted keyLe (List.insertionSort keyLe q) :=
  ⟨by decide, fun q => List.sorted_insertionSort keyLe q⟩

/-! Lookup lemmas for the query map. -/

theorem orO_none (o : Option String) : orO o none = o := by
  cases o <;> rfl

theorem orO_assoc (a b c : Option String) :
    orO (orO a b) c = orO a (orO b c) := by
  cases a <;> cases b <;> rfl

theorem orO_some (v : String) (o : Option String) : orO (some v) o = some v := rfl

theorem getV_append (l1 l2 : Values) (k : String) :
    Values.get (l1 ++ l2) k = orO (Values.get l2 k) (Values.get l1 k) := by
  induction l1 with
  | nil => simp [Values.get, orO_none]
  | cons p l1 ih =>
      show orO (Values.get (l1 ++ l2) k) (if p.1 = k then some p.2 else none)
        = orO (Values.get l2 k) (orO (Values.get l1 k) (if p.1 = k then some p.2 else none))
      rw [ih, orO_assoc]

theorem getV_filter_ne (q : Values) (k k2 : String) (h : k2 ≠ k) :
    Values.get (q.filter (fun p => p.1 != k)) k2 = Values.get q k2 := by
  induction q with
  | nil => rfl
  | cons p ps ih =>
      by_cases hp : p.1 = k
      · have hb : (p.1 != k) = false := by simp [hp]
        have hp2 : ¬ (p.1 = k2) := by rw [hp]; exact fun hh => h hh.symm
        simp only [List.filter, hb, Values.get, ih, if_neg hp2, orO_none]
      · have hb : (p.1 != k) = true := by simp [hp]
        simp only [List.filter, hb, Values.get, ih]

theorem getV_set_same (q : Values) (k v : String) :
    Values.get (Values.set q k v) k = some v := by
  unfold Values.set
  rw [getV_append]
  simp [Values.get, orO]

theorem getV_set_ne (q : Values) (k v k2 : String) (h : k2 ≠ k) :
    Values.get (Values.set q k v) k2 = Values.get q k2 := by
  unfold Values.set
  rw [getV_append]
  have : ¬ (k = k2) := fun hh => h hh.symm
  simp only [Values.get, if_neg this, orO_none, orO]
  exact getV_filter_ne q k k2 h

theorem getV_fold (params : Values) : ∀ (q : Values) (k : String),
    Values.get (params.foldl (fun q p => Values.set q p.1 p.2) q) k
      = orO (Values.get params k) (Values.get q k) := by
  induction params with
  | nil => intro q k; simp [Values.get, orO]
  | cons p ps ih =>
      intro q k
      simp only [List.foldl, Values.get, ih, orO_assoc]
      by_cases hk : p.1 = k
      · subst hk
        rw [getV_set_same, if_pos rfl, orO_some]
      · rw [getV_set_ne q p.1 p.2 k (fun hh => hk hh.symm), if_neg hk]
        simp [orO]

/-- Claim C6: the query buildRequestPath assembles always binds the keys
apikey, datatype and outputsize; the binding is the default value (the stored
API key, csv, compact) unless the caller passed a parameter with the same
key, in which case the caller value (the last one, as in the Go map) replaces
the default. -/
theorem defaults_present_and_overridable (apiKey : String) (params : Values) :
    Values.get (buildQuery apiKey params) queryApiKey
      = some ((Values.get params queryApiKey).getD apiKey) ∧
    Values.get (buildQuery apiKey params) queryDataType
      = some ((Values.get params queryDataType).getD valueJson) ∧
    Values.get (buildQuery apiKey params) queryOutputSize
      = some ((Values.get params queryOutputSize).getD valueCompact) := by
  unfold buildQuery
  refine ⟨?_, ?_, ?_⟩ <;> rw [getV_fold]
  · have hbase : Values.get
        (Values.set (Values.set (Values.set [] queryApiKey apiKey)
          queryDataType valueJson) queryOutputSize valueCompact) queryApiKey
        = some apiKey := by
      rw [getV_set_ne _ _ _ _ (by decide), getV_set_ne _ _ _ _ (by decide),
        getV_set_same]
    rw [hbase]
    rcases h : Values.get params queryApiKey with _ | v <;> simp [orO, h]
  · have hbase : Values.get
        (Values.set (Values.set (Values.set [] queryApiKey apiKey)
          queryDataType valueJson) queryOutputSize valueCompact) queryDataType
        = some valueJson := by
      rw [getV_set_ne _ _ _ _ (by decide), getV_set_same]
    rw [hbase]
    rcases h : Values.get params queryDataType with _ | v <;> simp [orO, h]
  · have hbase : Values.get
        (Values.set (Values.set (Values.set [] queryApiKey apiKey)
          queryDataType valueJson) queryOutputSize valueCompact) queryOutputSize
        = some valueCompact := by
      rw [getV_set_same]
    rw [hbase]
    rcases h : Values.get params queryOutputSize with _ | v <;> simp [orO, h]

/-! Connection construction, connection.go and the functional options file. -/

/-- The http.Client execution context, restricted to the one field the
options touch: the timeout, a Go time.Duration in nanoseconds.  The zero
value of http.Client carries timeout 0, meaning no timeout. -/
structure HttpClient where
  timeout : Int := 0
  deriving Repr, DecidableEq

/-- Constant requestTimeout of av.go: time.Second * 30, in nanoseconds. -/
def requestTimeout : Int := 30 * 1000000000

/-- Modelled from the spec: the constant TimeoutDefault read by
defaultConnOptions is declared in a repository file that is not among the
sources; the spec fixes the default HTTP timeout at 30 seconds, in agreement
with requestTimeout of av.go. -/
def TimeoutDefault : Int := 30 * 1000000000

/-- The connOptions struct of the options file. -/
structure ConnOptions where
  client : HttpClient
  host : String
  timeout : Int
  rl : RateLimiter
  deriving Repr, DecidableEq

/-- defaultConnOptions of connection.go: a zero-value http.Client, the
default host, TimeoutDefault stored in the timeout field, and a rate limiter
built with NewRateLimiter(0, 0). -/
def defaultConnOptions : ConnOptions :=
  { client := {}
    host := HostDefault
    timeout := TimeoutDefault
    rl := NewRateLimiter 0 0 }

/-- A ConnOption, the funcConnOption wrapper of the options file collapsed to
the function it wraps. -/
abbrev ConnOption := ConnOptions → ConnOptions

/-- WithHost of the options file. -/
def WithHost (host : String) : ConnOption :=
  fun o => { o with host := host }

/-- WithRateLimiter of the options file. -/
def WithRateLimiter (rl : RateLimiter) : ConnOption :=
  fun o => { o with rl := rl }

/-- WithTimeout of the options file: store the timeout into the http.Client
(the nil-pointer guard of the source cannot fire in this model, which keeps a
client value; defaultConnOptions always supplies one). -/
def WithTimeout (timeout : Int) : ConnOption :=
  fun o => { o with client := { o.client with timeout := timeout } }

/-- WithHTTPClient of the options file. -/
def WithHTTPClient (client : HttpClient) : ConnOption :=
  fun o => { o with client := client }

/-- NewConnection of connection.go: the defaults, then every option applied
in order. -/
def NewConnection (opts : List ConnOption) : ConnOptions :=
  opts.foldl (fun o f => f o) defaultConnOptions

/-- Claim C7 (the code diverges here): defaultConnOptions stores the
30-second TimeoutDefault only into the timeout field of connOptions, which
nothing reads, and pairs it with a zero-value http.Client; so a connection
built with no options issues its HTTP calls with client timeout 0 (no
timeout), not 30 seconds, and the client timeout changes only through an
explicit WithTimeout or WithHTTPClient option. -/
theorem default_timeout_never_applied :
    (NewConnection []).timeout = TimeoutDefault ∧
    TimeoutDefault = requestTimeout ∧
    (NewConnection []).client.timeout = 0 ∧
    (NewConnection []).client.timeout ≠ requestTimeout ∧
    (∀ t : Int, (NewConnection [WithTimeout t]).client.timeout = t) ∧
    (∀ c : HttpClient, (NewConnection [WithHTTPClient c]).client = c) :=
  ⟨rfl, rfl, rfl, by decide, fun _ => rfl, fun _ => rfl⟩

/-- The http.Response, restricted to the body the client reads. -/
structure Response where
  body : String
  deriving Repr, DecidableEq

/-- Request of avConnection, connection.go: under the rate limiter of the
connection the work closure first mutates the caller-owned endpoint, storing
the https scheme and the configured host into it, then issues the GET
through the HTTP client (httpCall, which covers http.NewRequest and
client.Do, and may fail).  The world state threaded through Do is that URL
object, so the returned tuple carries the Do outcome, the limiter state, the
endpoint as the caller sees it afterwards, and the execution count. -/
def avRequest (copts : ConnOptions) (events : List (Bool × Bool))
    (httpCall : URL → Except String Response) (endpoint : URL) :
    DoResult (Except String Response) × RateLimiter × URL × Nat :=
  copts.rl.Do events
    (fun u =>
      let u2 := { u with scheme := schemeHttps, host := copts.host }
      (u2, httpCall u2))
    endpoint

/-- Claim C10: whenever the rate limiter admits the call, so the work closure
ran (execution count 1), the caller URL object comes back mutated: scheme
https and host the configured host, with path and raw query exactly as
before, whether the HTTP call succeeded or failed. -/
theorem request_mutates_endpoint (copts : ConnOptions) (events : List (Bool × Bool))
    (httpCall : URL → Except String Response) (endpoint : URL)
    (h : (avRequest copts events httpCall endpoint).2.2.2 = 1) :
    (avRequest copts events httpCall endpoint).2.2.1
      = { endpoint with scheme := schemeHttps, host := copts.host } ∧
    (avRequest copts events httpCall endpoint).2.2.1.path = endpoint.path ∧
    (avRequest copts events httpCall endpoint).2.2.1.rawQuery = endpoint.rawQuery ∧
    (avRequest copts events httpCall endpoint).2.2.1.scheme = schemeHttps ∧
    (avRequest copts events httpCall endpoint).2.2.1.host = copts.host := by
  unfold avRequest RateLimiter.Do at h ⊢
  by_cases hday : copts.rl.dayCount = copts.rl.dayLimit
  · rw [if_pos hday] at h
    simp at h
  · rw [if_neg hday] at h ⊢
    rcases hsw : secWait copts.rl events with ⟨b, l1⟩
    cases b
    · rw [hsw] at h
      simp at h
    · simp

/-- Witness for claim C10 at a concrete connection, endpoint and failing
HTTP call. -/
theorem request_mutates_endpoint_witness :
    (avRequest (ConnOptions.mk {} "www.alphavantage.co" 0 (RateLimiter.mk 5 0 3 0))
        [] (fun _ => Except.error "boom") (URL.mk "" "" "query" "x=1")).2.2.1
      = URL.mk "https" "www.alphavantage.co" "query" "x=1" ∧
    (avRequest (ConnOptions.mk {} "www.alphavantage.co" 0 (RateLimiter.mk 5 0 3 0))
        [] (fun _ => Except.error "boom") (URL.mk "" "" "query" "x=1")).2.2.1.path = "query" ∧
    (avRequest (ConnOptions.mk {} "www.alphavantage.co" 0 (RateLimiter.mk 5 0 3 0))
        [] (fun _ => Except.error "boom") (URL.mk "" "" "query" "x=1")).2.2.1.rawQuery = "x=1" ∧
    (avRequest (ConnOptions.mk {} "www.alphavantage.co" 0 (RateLimiter.mk 5 0 3 0))
        [] (fun _ => Except.error "boom") (URL.mk "" "" "query" "x=1")).2.2.1.scheme = "https" ∧
    (avRequest (ConnOptions.mk {} "www.alphavantage.co" 0 (RateLimiter.mk 5 0 3 0))
        [] (fun _ => Except.error "boom") (URL.mk "" "" "query" "x=1")).2.2.1.host
      = "www.alphavantage.co" :=
  request_mutates_endpoint
    (ConnOptions.mk {} "www.alphavantage.co" 0 (RateLimiter.mk 5 0 3 0))
    [] (fun _ => Except.error "boom") (URL.mk "" "" "query" "x=1") (by decide)

/-! Client operations, av.go. -/

/-- Shared body of the client operations of av.go: issue the request through
the Connection; on a request error return (nil, the error) before the
deferred close is installed; otherwise install the deferred body close, parse
the body and return the parser pair verbatim, the deferred close running once
on the way out of either parse outcome.  The parsers are external to the
core: modelled from the spec, a parser returns a full record list or an
error, never both, hence the Except.  The Nat counts how many times the
response body was closed on the taken path. -/
def clientDo {R : Type} (conn : URL → Except String Response)
    (parse : String → Except String (List R)) (endpoint : URL) :
    (Option (List R) × Option String) × Nat :=
  match conn endpoint with
  | Except.error e => ((none, some e), 0)
  | Except.ok res =>
      match parse res.body with
      | Except.error e => ((none, some e), 1)
      | Except.ok recs => ((some recs, none), 1)

/-- Modelled from the spec: the intraday operation name, fixed by the wire
format of the spec in the same way as the daily one; the enumeration file is
not among the sources. -/
def timeSeriesIntradayKey : String := "TIME_SERIES_INTRADAY"

/-- Client.StockTimeSeries of av.go, with the Connection and the external
parser as parameters. -/
def StockTimeSeries {R : Type} (conn : URL → Except String Response)
    (parse : String → Except String (List R)) (apiKey seriesKey symbol : String) :
    (Option (List R) × Option String) × Nat :=
  clientDo conn parse
    (buildRequestPath apiKey [(queryEndpoint, seriesKey), (querySymbol, symbol)])

/-- Client.StockTimeSeriesIntraday of av.go, with the Connection and the
external parser as parameters. -/
def StockTimeSeriesIntraday {R : Type} (conn : URL → Except String Response)
    (parse : String → Except String (List R)) (apiKey intervalKey symbol : String) :
    (Option (List R) × Option String) × Nat :=
  clientDo conn parse
    (buildRequestPath apiKey
      [(queryEndpoint, timeSeriesIntradayKey), (queryInterval, intervalKey),
        (querySymbol, symbol)])

/-- Client.DigitalCurrency of av.go, with the Connection and the external
parser as parameters. -/
def DigitalCurrency {R : Type} (conn : URL → Except String Response)
    (parse : String → Except String (List R)) (apiKey digital physical : String) :
    (Option (List R) × Option String) × Nat :=
  clientDo conn parse
    (buildRequestPath apiKey
      [(queryEndpoint, valueDigitalCurrencyEndpoint), (querySymbol, digital),
        (queryMarket, physical)])

/-- The error of a transport result, none on success. -/
def transportErr (r : Except String Response) : Option String :=
  match r with
  | Except.error e => some e
  | Except.ok _ => none

/-- The error of the parser on the transported body, none when the transport
failed or the parser succeeded. -/
def parseErr {R : Type} (parse : String → Except String (List R))
    (r : Except String Response) : Option String :=
  match r with
  | Except.error _ => none
  | Except.ok res =>
      match parse res.body with
      | Except.error e => some e
      | Except.ok _ => none

/-- Claim C8: a client operation returns records exactly when it returns no
error (never both, never neither); the error, when there is one, is verbatim
the transport error or the parser error and nothing else; and the three
operations are clientDo at their own endpoints, so none of them adds an
error of its own. -/
theorem ops_exclusive_outcomes {R : Type} (conn : URL → Except String Response)
    (parse : String → Except String (List R)) (endpoint : URL)
    (apiKey seriesKey intervalKey symbol digital physical : String) :
    ((clientDo conn parse endpoint).1.1 = none
        ↔ (clientDo conn parse endpoint).1.2 ≠ none) ∧
    ((clientDo conn parse endpoint).1.2 = none ∨
      (clientDo conn parse endpoint).1.2 = transportErr (conn endpoint) ∨
      (clientDo conn parse endpoint).1.2 = parseErr parse (conn endpoint)) ∧
    StockTimeSeries conn parse apiKey seriesKey symbol
      = clientDo conn parse (stockTimeSeriesEndpoint apiKey seriesKey symbol) ∧
    StockTimeSeriesIntraday conn parse apiKey intervalKey symbol
      = clientDo conn parse (buildRequestPath apiKey
          [(queryEndpoint, timeSeriesIntradayKey), (queryInterval, intervalKey),
            (querySymbol, symbol)]) ∧
    DigitalCurrency conn parse apiKey digital physical
      = clientDo conn parse (buildRequestPath apiKey
          [(queryEndpoint, valueDigitalCurrencyEndpoint), (querySymbol, digital),
            (queryMarket, physical)]) := by
  refine ⟨?_, ?_, rfl, rfl, rfl⟩ <;>
  · rcases h : conn endpoint with e | res
    · simp [clientDo, transportErr, parseErr, h]
    · rcases hp : parse res.body with e | recs <;>
        simp [clientDo, transportErr, parseErr, h, hp]

/-- Claim C9: the response body is closed exactly once per acquired response:
once whenever the transport handed a response over, whether the parse then
succeeded or failed (the deferred close), and zero times when the transport
failed, in which case no response body was acquired at all (the transport
contract pairs a non-nil error with a nil response). -/
theorem body_closed_exactly_once {R : Type} (conn : URL → Except String Response)
    (parse : String → Except String (List R)) (endpoint : URL) :
    (clientDo conn parse endpoint).2
      = (match conn endpoint with
          | Except.ok _ => 1
          | Except.error _ => 0) := by
  rcases h : conn endpoint with e | res
  · simp [clientDo, h]
  · rcases hp : parse res.body with e | recs <;> simp [clientDo, h, hp]

end AV
